import Mathlib

/-!
Verification development for the research-agent workflow engine.

The Python sources are shallowly embedded as pure Lean functions:

* `src/state/state.py`            → the `AgentState` record and its entity types
* `src/agent/edges.py`            → `route_to_tool_or_end`, `shouldContinueResearch`
* `src/agent/nodes/planner_node.py`   → `parseSections`, `parseQueries`, `generateQueries`
* `src/agent/nodes/web_search_node.py` → `webSearchCall`, `processSearchResults`,
  `updateSectionWithResults`
* `src/agent/nodes/final_answer_node.py` → `writeSectionContent`, `generateFinalReport`,
  `formatResearchReport`, `finalAnswerCall`

The generation engine (LLM) and the search provider are external collaborators;
their outputs enter the embedded node functions as explicit parameters
(`response`, `sectionText`, `reportText`, `searchFn`).  Prompt strings that are
only ever sent to the generation engine (and never reach the returned state)
are not reconstructed, except for the per-section content blocks of the final
compilation prompt, which one claim is about.

All string manipulation is re-implemented structurally over `List Char`
(mirroring CPython semantics for `str.strip`, `str.split`, `str.lower`,
`str.startswith`, `str.endswith`, substring tests, `textwrap.dedent` and the
regexes actually used), so that every definition reduces by `decide`/`rfl`.
-/

namespace ResearchAgent

/-- ASCII whitespace recognised by Python `str.strip()` / regex `\s`:
space, tab, newline, carriage return, vertical tab, form feed. -/
def isPySpace (c : Char) : Bool :=
  c == ' ' || c == '\t' || c == '\n' || c == '\r' || c == '\x0b' || c == '\x0c'

/-- Python `str.strip()` (ASCII whitespace, which is all that occurs here). -/
def pyStrip (s : String) : String :=
  String.mk (((s.data.dropWhile isPySpace).reverse.dropWhile isPySpace).reverse)

/-- Python `needle in haystack` substring test, over char lists. -/
def listContains (haystack needle : List Char) : Bool :=
  match haystack with
  | [] => needle.isEmpty
  | _ :: rest => needle.isPrefixOf haystack || listContains rest needle

/-- Python `needle in hay` on strings. -/
def strContains (hay needle : String) : Bool :=
  listContains hay.data needle.data

/-- ASCII lowering of one character (the inputs relevant here are ASCII,
matching Python `str.lower` on them). -/
def charLower (c : Char) : Char :=
  if c.toNat ≥ 65 && c.toNat ≤ 90 then Char.ofNat (c.toNat + 32) else c

/-- Python `str.lower()` (ASCII fragment). -/
def strLower (s : String) : String :=
  String.mk (s.data.map charLower)

/-- Python `str.split("\n")` over a char list: splits at every newline,
never returns an empty list. -/
def splitOnNl : List Char → List (List Char)
  | [] => [[]]
  | c :: rest =>
    let r := splitOnNl rest
    if c == '\n' then [] :: r
    else
      match r with
      | [] => [[c]]
      | h :: t => (c :: h) :: t

/-- Python `s.split("\n")` on strings. -/
def pyLines (s : String) : List String :=
  (splitOnNl s.data).map String.mk

/-- Python `str.startswith(p)`. -/
def pyStartsWith (s p : String) : Bool :=
  p.data.isPrefixOf s.data

/-- Python `str.endswith(p)`. -/
def pyEndsWith (s p : String) : Bool :=
  p.data.reverse.isPrefixOf s.data.reverse

/-- Concatenation of a list of strings (`"".join` / repeated `+=`). -/
def concatAll : List String → String
  | [] => ""
  | s :: rest => s ++ concatAll rest

/-! ## Data model (`src/state/state.py`) -/

/-- `ResearchSection` (pydantic model, state.py lines 19-31). -/
structure ResearchSection where
  title : String
  description : String
  content : String := ""
  completed : Bool := false
deriving DecidableEq, Repr

/-- `SearchQuery` (state.py lines 34-40).  `section_id` is optional. -/
structure SearchQuery where
  query : String
  section_id : Option Nat := none
deriving DecidableEq, Repr

/-- A tool call carried by a generation-engine message.  `name` models
`tool_call.get("name")` (absent ↦ `""`), `args_query` models the optional
`"query"` entry of `tool_call.get("args", {})`. -/
structure ToolCall where
  name : String := ""
  args_query : Option String := none
deriving DecidableEq, Repr

/-- A conversation message.  `tool_calls = []` models both a message without a
`tool_calls` attribute (`hasattr` false) and one whose list is empty/falsy. -/
structure Message where
  content : String := ""
  tool_calls : List ToolCall := []
deriving DecidableEq, Repr

/-- A raw provider result dict; every field models `.get` on a possibly
missing key. -/
structure RawItem where
  title : Option String := none
  url : Option String := none
  content : Option String := none
  raw_content : Option String := none
deriving DecidableEq, Repr

/-- A normalised search result
(`WebSearchNode._process_search_results` output shape). -/
structure SearchResultItem where
  title : String
  url : String
  content : String
  full_content : String
deriving DecidableEq, Repr

/-- `AgentState` (state.py lines 43-58).  `search_results` is the insertion-
ordered dict keyed by query text, modelled as an association list. -/
structure AgentState where
  messages : List Message := []
  research_topic : Option String := none
  sections : List ResearchSection := []
  current_section_index : Option Nat := none
  research_steps : List String := []
  sources : List String := []
  search_queries : List SearchQuery := []
  search_results : List (String × List SearchResultItem) := []
  search_iterations : Nat := 0
  max_search_iterations : Nat := 3
  formatted_report : Option String := none
  completed_sections : List ResearchSection := []
deriving DecidableEq, Repr

/-! ## Entity parser (`PlannerNode._parse_sections`, planner_node.py 178-220) -/

/-- The "requires no research" marker test of `_parse_sections`:
`"research" in line.lower() and ("false" in line.lower() or "no" in line.lower())`.
Note these are *substring* tests, not word-token tests. -/
def noResearchMarker (line : String) : Bool :=
  let l := strLower line
  strContains l "research" && (strContains l "false" || strContains l "no")

/-- One step of the description/requires-research loop over `lines[1:]`
(planner_node.py 203-209).  The accumulator is
`(description so far, requires_research so far)`. -/
def sectionDescStep (acc : String × Bool) (line : String) : String × Bool :=
  if noResearchMarker line then (acc.1, false)
  else (acc.1 ++ line ++ " ", acc.2)

/-- Parse one split block into a `ResearchSection` (planner_node.py 195-218).
`lines` is `block.strip().split("\n")`, which is never empty (so the
Python guard `if not lines: continue` never fires and `lines[0]` is total;
`headD` is only a formality). -/
def parseSectionBlock (lines : List String) : ResearchSection :=
  let title := pyStrip (lines.headD "")
  let dr := lines.tail.foldl sectionDescStep ("", true)
  { title := title
    description := pyStrip dr.1
    content := ""
    completed := !dr.2 }

/-- Attempt to match the separator regex `\n\s*\d+\.\s+` at the head of `cs`
(the `re.split` pattern of planner_node.py 191).  Returns the text after the
match.  `\s*` and `\d+` are maximal munch here because whitespace and digit
classes are disjoint and `.` can follow neither, so no backtracking arises. -/
def sectionSepMatch (cs : List Char) : Option (List Char) :=
  match cs with
  | '\n' :: rest =>
    let r1 := rest.dropWhile isPySpace
    let ds := r1.takeWhile Char.isDigit
    let r2 := r1.dropWhile Char.isDigit
    if ds.isEmpty then none
    else
      match r2 with
      | '.' :: r3 =>
        let ws2 := r3.takeWhile isPySpace
        let r4 := r3.dropWhile isPySpace
        if ws2.isEmpty then none else some r4
      | _ => none
  | _ => none

/-- `re.split` driver: scan left to right, splitting at each leftmost
separator match.  Fuel is the input length; every match consumes at least
one character, so the fuel-exhausted fallback is unreachable. -/
def splitSepGo : Nat → List Char → List Char → List (List Char)
  | _, [], acc => [acc.reverse]
  | 0, cs, acc => [acc.reverse ++ cs]
  | fuel + 1, c :: rest, acc =>
    match sectionSepMatch (c :: rest) with
    | some r => acc.reverse :: splitSepGo fuel r []
    | none => splitSepGo fuel rest (c :: acc)

/-- `re.split(r"\n\s*\d+\.\s+", content)` (planner_node.py 191). -/
def pySplitSections (s : String) : List String :=
  (splitSepGo s.data.length s.data []).map String.mk

/-- `PlannerNode._parse_sections` (planner_node.py 178-220): split on the
numbered-list marker, skip the first block (intro text), parse the rest. -/
def parseSections (content : String) : List ResearchSection :=
  ((pySplitSections content).drop 1).map
    (fun block => parseSectionBlock (pyLines (pyStrip block)))

/-! ## Entity parser (`PlannerNode._parse_queries`, planner_node.py 222-251) -/

/-- Match the list-item regex `^(?:\d+\.|\*|-)\s*(.+)$` against a line,
returning the capture group.  The call sites pass `line.strip()`, for which
the greedy `\s*(.+)$` is exactly "drop leading whitespace, require the rest
non-empty" (a stripped line cannot end in whitespace; the lines contain no
newline, so `.` matches every remaining character). -/
def matchListItem (cs : List Char) : Option (List Char) :=
  let afterMarker : Option (List Char) :=
    match cs with
    | '*' :: r => some r
    | '-' :: r => some r
    | _ =>
      let ds := cs.takeWhile Char.isDigit
      let r1 := cs.dropWhile Char.isDigit
      if ds.isEmpty then none
      else
        match r1 with
        | '.' :: r2 => some r2
        | _ => none
  match afterMarker with
  | none => none
  | some r =>
    let rest := r.dropWhile isPySpace
    if rest.isEmpty then none else some rest

/-- The per-line body of the `_parse_queries` loop (planner_node.py 236-249):
strip the line; skip blank lines and heading lines (`#`, `<`); a list-item
match contributes its stripped capture; otherwise a line that neither starts
nor ends with a double quote is taken verbatim.  Returns the query this line
contributes, if any. -/
def lineQueryOf (sectionId : Nat) (rawLine : String) : Option SearchQuery :=
  let line := pyStrip rawLine
  if line == "" || pyStartsWith line "#" || pyStartsWith line "<" then none
  else
    match matchListItem line.data with
    | some rest => some { query := pyStrip (String.mk rest), section_id := some sectionId }
    | none =>
      if line != "" && !pyStartsWith line "\"" && !pyEndsWith line "\"" then
        some { query := line, section_id := some sectionId }
      else none

/-- `PlannerNode._parse_queries` (planner_node.py 222-251).  The Python loop
appends at most one query per line in order, which is exactly `filterMap`
over `content.strip().split("\n")`. -/
def parseQueries (content : String) (sectionId : Nat) : List SearchQuery :=
  (pyLines (pyStrip content)).filterMap (lineQueryOf sectionId)

/-! ## Routing (`src/agent/edges.py`) -/

/-- The two routing targets of `route_to_tool_or_end`. -/
inductive Route where
  | web_search
  | final_answer
deriving DecidableEq, Repr

/-- `state["messages"][-1].tool_calls` where a missing attribute is modelled
as `[]`.  (With `messages = []` Python would raise; theorems that inspect the
last message therefore carry a `messages ≠ []` hypothesis.) -/
def lastMessageToolCalls (s : AgentState) : List ToolCall :=
  match s.messages.getLast? with
  | some m => m.tool_calls
  | none => []

/-- `_should_continue_research` (edges.py 51-79). -/
def shouldContinueResearch (s : AgentState) : Bool :=
  match s.current_section_index with
  | none => false
  | some _ =>
    if s.search_iterations ≥ s.max_search_iterations then true
    else if !s.search_results.isEmpty then true
    else false

/-- The part of `route_to_tool_or_end` after the tool-call check
(edges.py 36-48). -/
def routeAfterToolCheck (s : AgentState) : Route :=
  if !s.search_queries.isEmpty then Route.web_search
  else if shouldContinueResearch s then Route.final_answer
  else Route.final_answer

/-- `route_to_tool_or_end` (edges.py 16-48): an explicit `web_search` tool
call on the last message routes to search; otherwise non-empty
`search_queries` route to search; otherwise `final_answer` (both remaining
branches). -/
def route_to_tool_or_end (s : AgentState) : Route :=
  match lastMessageToolCalls s with
  | tc :: _ =>
    if tc.name == "web_search" then Route.web_search else routeAfterToolCheck s
  | [] => routeAfterToolCheck s

/-! ## Web search node (`WebSearchNode`, web_search_node.py) -/

/-- Normalise one raw result item
(`WebSearchNode._process_search_results`, web_search_node.py 149-156). -/
def formatRawItem (item : RawItem) : SearchResultItem :=
  { title := item.title.getD "Untitled"
    url := item.url.getD ""
    content := item.content.getD ""
    full_content := item.raw_content.getD (item.content.getD "") }

/-- Insert-or-overwrite into the insertion-ordered dict modelled as an
association list (Python `processed[query] = formatted_items`). -/
def upsertResult (m : List (String × List SearchResultItem)) (k : String)
    (v : List SearchResultItem) : List (String × List SearchResultItem) :=
  match m with
  | [] => [(k, v)]
  | (k0, v0) :: rest =>
    if k0 == k then (k, v) :: rest else (k0, v0) :: upsertResult rest k v

/-- `WebSearchNode._process_search_results` (web_search_node.py 132-160).
The raw batch is the list of `{query, results}` entries returned per query. -/
def processSearchResults (results : List (String × List RawItem)) :
    List (String × List SearchResultItem) :=
  results.foldl (fun acc qr => upsertResult acc qr.1 (qr.2.map formatRawItem)) []

/-- `WebSearchNode._update_section_with_results` (web_search_node.py 162-190):
copies the state, short-circuits on a missing or out-of-bounds
`current_section_index`, and otherwise deliberately leaves the section alone
("that will be done in the writer node") — so every branch returns a state
value equal to the input. -/
def updateSectionWithResults (s : AgentState)
    (results : List (String × List SearchResultItem)) : AgentState :=
  match s.current_section_index with
  | none => s
  | some idx =>
    if idx ≥ s.sections.length then s
    else s

/-- The query set that `WebSearchNode.__call__` actually executes
(web_search_node.py 49-61): state queries if present, else a single query
extracted from the first tool call of the last message
(`tool_args.get("query", "")`). -/
def effectiveSearchQueries (s : AgentState) : List SearchQuery :=
  let queries := s.search_queries
  if queries.isEmpty then
    match lastMessageToolCalls s with
    | tc :: _ => [{ query := tc.args_query.getD "", section_id := none }]
    | [] => []
  else queries

/-- The combined `ToolMessage` content (web_search_node.py 111-114). -/
def searchResultMessageContent (queryStrings : List String)
    (rawResults : List (String × List RawItem)) : String :=
  "Completed web searches:\n\n" ++
    concatAll ((queryStrings.zip rawResults).map (fun p =>
      "- Query: " ++ p.1 ++ "\n" ++ "  Found " ++ toString p.2.2.length ++
        " results\n"))

/-- `WebSearchNode.__call__` (web_search_node.py 40-130), success path of the
provider call.  `searchFn` abstracts the external search capability:
`async_search` returns one `{query, results}` entry per query in order, here
`queryStrings.map (fun q => (q, searchFn q))`.  (The exception fallback path
differs only in the raw result payloads, not in the state bookkeeping.)
With no state queries and no tool call the input state is returned as is. -/
def webSearchCall (searchFn : String → List RawItem) (s : AgentState) : AgentState :=
  let queries := effectiveSearchQueries s
  if queries.isEmpty then s
  else
    let queryStrings := queries.map (fun q => q.query)
    let rawResults := queryStrings.map (fun q => (q, searchFn q))
    let processed := processSearchResults rawResults
    let updated := updateSectionWithResults s processed
    let researchSteps :=
      s.research_steps ++ queryStrings.map (fun q => "Searched for: " ++ q)
    let sources :=
      s.sources ++ queryStrings.map (fun q => "Search results for: " ++ q)
    let iterations := s.search_iterations + 1
    let toolResponse : Message :=
      { content := searchResultMessageContent queryStrings rawResults
        tool_calls := [] }
    { updated with
      messages := s.messages ++ [toolResponse]
      research_steps := researchSteps
      sources := sources
      search_results := processed
      search_iterations := iterations }

/-! ## Planner query generation (`PlannerNode._generate_queries`,
planner_node.py 116-176) -/

/-- `PlannerNode._generate_queries`.  `response` is the generation-engine
reply (its prompt only feeds the engine and is not reconstructed).  The
function guards an out-of-bounds `current_section_index` by returning the
state unchanged; `PlannerNode.__call__` only calls it with the index set, so
the `none` branch is unreachable. -/
def generateQueries (response : Message) (s : AgentState) : AgentState :=
  match s.current_section_index with
  | none => s
  | some idx =>
    if idx ≥ s.sections.length then s
    else
      { s with
        messages := s.messages ++ [response]
        search_queries := parseQueries response.content idx }

/-! ## Final answer node (`FinalAnswerNode`, final_answer_node.py) -/

/-- The per-section blocks of the compilation prompt
(final_answer_node.py 170-173): `f"Section {i}: {title}\n\n{content}\n\n"`
for `i` counting from 1. -/
def sectionsContentOf (secs : List ResearchSection) : String :=
  concatAll (secs.enum.map (fun p =>
    "Section " ++ toString (p.1 + 1) ++ ": " ++ p.2.title ++ "\n\n" ++
      p.2.content ++ "\n\n"))

/-- The section list the compiler renders (final_answer_node.py 163-167):
`completed_sections`, falling back to `sections` when it is empty. -/
def reportSectionList (s : AgentState) : List ResearchSection :=
  if s.completed_sections.isEmpty then s.sections else s.completed_sections

/-- The `sections_content` value built by `_generate_final_report`
(final_answer_node.py 169-173). -/
def finalReportSectionsContent (s : AgentState) : String :=
  sectionsContentOf (reportSectionList s)

/-- `' '`/`'\t'` (the character class of `textwrap.dedent`). -/
def isIndentChar (c : Char) : Bool :=
  c == ' ' || c == '\t'

/-- Longest common run of indent characters shared by two indents. -/
def commonIndent (a b : List Char) : List Char :=
  match a, b with
  | x :: xs, y :: ys => if x == y then x :: commonIndent xs ys else []
  | _, _ => []

/-- Remove the margin from a line if the line starts with it
(`re.sub(r'(?m)^' + margin, '', text)`). -/
def dedentLine (margin : List Char) (line : List Char) : List Char :=
  if margin.isPrefixOf line then line.drop margin.length else line

/-- `textwrap.dedent`: whitespace-only lines are normalised to empty; the
margin is the longest common `[ \t]` prefix of the lines that have content;
that margin is removed from the start of every line carrying it. -/
def pyDedent (text : String) : String :=
  let lines := (splitOnNl text.data)
  let lines1 := lines.map (fun l => if !l.isEmpty && l.all isIndentChar then [] else l)
  let indents := lines1.filterMap (fun l =>
    if (l.dropWhile isIndentChar).isEmpty then none
    else some (l.takeWhile isIndentChar))
  let margin :=
    match indents with
    | [] => []
    | i :: rest => rest.foldl commonIndent i
  String.mk (List.intercalate ['\n'] (lines1.map (dedentLine margin)))

/-- `FinalAnswerNode.format_research_report` (final_answer_node.py 203-238):
the dedented report skeleton around the generated text, the trace of research
steps and the source list. -/
def formatResearchReport (s : AgentState) (finalReport : String) : String :=
  let topic := s.research_topic.getD "Unknown Topic"
  let steps := String.intercalate "\n" (s.research_steps.map (fun st => "- " ++ st))
  let sources := String.intercalate "\n" (s.sources.map (fun src => "- " ++ src))
  pyDedent
    ("\n            RESEARCH REPORT: " ++ topic ++
     "\n            ==================================\n\n            " ++
     finalReport ++
     "\n\n            ----------------------------------\n            RESEARCH PROCESS:\n            " ++
     steps ++
     "\n\n            SOURCES:\n            " ++
     sources ++ "\n            ")

/-- `FinalAnswerNode._generate_final_report` (final_answer_node.py 152-201).
`reportText` is the generation-engine response to the compilation prompt
(whose section blocks are `finalReportSectionsContent`); the returned state
differs from the input only in `formatted_report`. -/
def generateFinalReport (reportText : String) (s : AgentState) : AgentState :=
  { s with formatted_report := some (formatResearchReport s reportText) }

/-- First index `j ≥` the running counter whose section is not completed;
`auxFirstIncomplete l j` scans `l` with `j` the index of its head.  This is
the `for i in range(...)` scan shape used by the nodes. -/
def auxFirstIncomplete : List ResearchSection → Nat → Option Nat
  | [], _ => none
  | sec :: rest, j => if sec.completed then auxFirstIncomplete rest (j + 1) else some j

/-- The scan `for i in range(start, len(sections))` for the first section
with `completed == False` (final_answer_node.py 123-127 with
`start = current_section_index + 1`). -/
def firstIncompleteFrom (sections : List ResearchSection) (start : Nat) : Option Nat :=
  auxFirstIncomplete (sections.drop start) start

/-- The section update of `_write_section_content`
(final_answer_node.py 113-120): copy the list and replace the entry at
`index` by a fresh record carrying the new content and `completed = True`.
Call sites guarantee `idx` is in bounds, so the `none` branch is a formality. -/
def applyWrittenContent (sections : List ResearchSection) (idx : Nat)
    (content : String) : List ResearchSection :=
  match sections.get? idx with
  | none => sections
  | some cur =>
    sections.set idx
      { title := cur.title, description := cur.description
        content := content, completed := true }

/-- `FinalAnswerNode._write_section_content` (final_answer_node.py 59-150).
`sectionText` is the generation-engine response for the section body,
`reportText` the response for the final compilation (used only when no next
section exists and the node chains into `_generate_final_report`).  The
section-writing prompt only feeds the engine and is not reconstructed.
Callers guarantee `current_section_index` is set and in bounds, so the
guard branches returning `s` are unreachable. -/
def writeSectionContent (sectionText reportText : String) (s : AgentState) : AgentState :=
  match s.current_section_index with
  | none => s
  | some idx =>
    match s.sections.get? idx with
    | none => s
    | some cur =>
      let newSection : ResearchSection :=
        { title := cur.title, description := cur.description
          content := sectionText, completed := true }
      let updatedSections := s.sections.set idx newSection
      let nextIndex := firstIncompleteFrom updatedSections (idx + 1)
      let s' : AgentState :=
        { s with
          sections := updatedSections
          current_section_index := nextIndex
          completed_sections := s.completed_sections ++ [newSection]
          search_queries := []
          search_results := []
          search_iterations := 0 }
      match nextIndex with
      | none => generateFinalReport reportText s'
      | some _ => s'

/-- `FinalAnswerNode.__call__` (final_answer_node.py 39-57): write the
current section when the index is set and in bounds, otherwise generate the
final report. -/
def finalAnswerCall (sectionText reportText : String) (s : AgentState) : AgentState :=
  match s.current_section_index with
  | some idx =>
    if idx < s.sections.length then writeSectionContent sectionText reportText s
    else generateFinalReport reportText s
  | none => generateFinalReport reportText s

/-! ## Helper lemmas -/

/-- `_update_section_with_results` never changes the state value: each branch
returns (a copy of) the input. -/
theorem updateSectionWithResults_eq (s : AgentState)
    (results : List (String × List SearchResultItem)) :
    updateSectionWithResults s results = s := by
  unfold updateSectionWithResults
  cases s.current_section_index <;> simp

/-- Closed form of the description/requires-research loop: the description
accumulates exactly the non-marker lines (each followed by a space) and the
flag drops to `false` exactly when some marker line occurs. -/
theorem sectionDescFold (ls : List String) (acc : String) (b : Bool) :
    ls.foldl sectionDescStep (acc, b) =
      (acc ++ concatAll ((ls.filter (fun l => !noResearchMarker l)).map (fun l => l ++ " ")),
        b && ls.all (fun l => !noResearchMarker l)) := by
  induction ls generalizing acc b with
  | nil => simp [concatAll]
  | cons x xs ih =>
    simp only [List.foldl_cons, sectionDescStep]
    cases hx : noResearchMarker x with
    | true =>
      rw [ih]
      simp [List.filter_cons, hx, concatAll]
    | false =>
      rw [ih]
      simp [List.filter_cons, hx, concatAll, String.append_assoc]

/-- If the incremental scan finds no incomplete section, all scanned sections
are completed. -/
theorem auxFirstIncomplete_none (l : List ResearchSection) (j : Nat)
    (h : auxFirstIncomplete l j = none) : ∀ sec ∈ l, sec.completed = true := by
  induction l generalizing j with
  | nil => intro sec hmem; cases hmem
  | cons x xs ih =>
    intro sec hmem
    unfold auxFirstIncomplete at h
    cases hx : x.completed with
    | true =>
      rw [hx] at h
      simp only [if_true] at h
      cases hmem with
      | head => exact hx
      | tail _ hmem2 => exact ih (j + 1) h sec hmem2
    | false =>
      rw [hx] at h
      simp at h

/-- If the incremental scan starting at index `j` answers `some i`, then
`i = j + k` for the first offset `k` whose section is incomplete: the section
at offset `k` is incomplete and all earlier offsets are completed. -/
theorem auxFirstIncomplete_some (l : List ResearchSection) (j i : Nat)
    (h : auxFirstIncomplete l j = some i) :
    ∃ k, i = j + k ∧ (∃ sec, l.get? k = some sec ∧ sec.completed = false) ∧
      (∀ m, m < k → ∀ sec, l.get? m = some sec → sec.completed = true) := by
  induction l generalizing j i with
  | nil => simp [auxFirstIncomplete] at h
  | cons x xs ih =>
    unfold auxFirstIncomplete at h
    cases hx : x.completed with
    | true =>
      rw [hx] at h
      simp only [if_true] at h
      obtain ⟨k, hk, hsec, hall⟩ := ih (j + 1) i h
      refine ⟨k + 1, by omega, ?_, ?_⟩
      · rw [List.get?_cons_succ]; exact hsec
      · intro m hm sec hget
        cases m with
        | zero =>
          rw [List.get?_cons_zero] at hget
          cases hget
          exact hx
        | succ m2 =>
          rw [List.get?_cons_succ] at hget
          exact hall m2 (by omega) sec hget
    | false =>
      rw [hx] at h
      obtain rfl : j = i := by simpa using h
      exact ⟨0, by omega, ⟨x, by simp, hx⟩, by intro m hm; omega⟩

/-! ## Claim C1 -/

/-- A state at the iteration cap that still carries pending queries. -/
def exC1 : AgentState :=
  { messages := [{ content := "latest response", tool_calls := [] }]
    research_topic := some "T"
    sections := [{ title := "A", description := "d", content := "", completed := false }]
    current_section_index := some 0
    search_queries := [{ query := "q1", section_id := some 0 }]
    search_iterations := 3
    max_search_iterations := 3 }

/-- C1 is refuted as stated: in a state whose `search_iterations` already
equals `max_search_iterations` but whose `search_queries` is non-empty, the
routing logic still sends the run to search execution (the pending-query
check precedes the iteration-cap check), and that execution pushes the
iteration count beyond the cap. -/
theorem c1_counterexample :
    exC1.search_iterations ≥ exC1.max_search_iterations ∧
    route_to_tool_or_end exC1 = Route.web_search ∧
    (webSearchCall (fun _ => []) exC1).search_iterations =
      exC1.max_search_iterations + 1 :=
  ⟨by decide, rfl, rfl⟩

/-- C1 (amended): the iteration cap sends the run to the Write stage only on
routing steps where the latest message carries no `web_search` tool call and
the pending query list is empty; under those conditions a state at or past
the cap is routed to `final_answer`, so no further search execution occurs
from it.  (With pending queries or an explicit tool call the route is still
search execution, so the cap alone does not bound the loop.) -/
theorem c1_iteration_cap_routes_to_write (s : AgentState)
    (htc : ∀ tc rest, lastMessageToolCalls s = tc :: rest → tc.name ≠ "web_search")
    (hq : s.search_queries = [])
    (hcap : s.max_search_iterations ≤ s.search_iterations) :
    route_to_tool_or_end s = Route.final_answer := by
  have hroute : routeAfterToolCheck s = Route.final_answer := by
    unfold routeAfterToolCheck
    rw [hq]
    cases h2 : shouldContinueResearch s <;> simp
  unfold route_to_tool_or_end
  cases h : lastMessageToolCalls s with
  | nil => exact hroute
  | cons tc rest =>
    have hname : (tc.name == "web_search") = false := by
      simpa using htc tc rest h
    simp [hname, hroute]

/-- A state at the iteration cap with no pending queries and no tool call. -/
def exC1w : AgentState :=
  { messages := [{ content := "m", tool_calls := [] }]
    sections := [{ title := "A", description := "d" }]
    current_section_index := some 0
    search_queries := []
    search_iterations := 3
    max_search_iterations := 3 }

/-- C1 witness: the amended theorem applied at a concrete state. -/
theorem c1_iteration_cap_routes_to_write_witness :
    exC1w.search_queries = [] ∧
    exC1w.max_search_iterations ≤ exC1w.search_iterations ∧
    route_to_tool_or_end exC1w = Route.final_answer :=
  ⟨rfl, by decide,
    c1_iteration_cap_routes_to_write exC1w
      (by intro tc rest h; simp [lastMessageToolCalls, exC1w] at h)
      rfl (by decide)⟩

/-! ## Claim C2 -/

/-- A state whose last message carries a `web_search` tool call with
`{query: "abc"}` while parsed queries are already pending in the state. -/
def exC2 : AgentState :=
  { messages :=
      [{ content := "resp"
         tool_calls := [{ name := "web_search", args_query := some "abc" }] }]
    search_queries := [{ query := "parsed", section_id := some 0 }] }

/-- C2 is refuted as stated: with both an explicit `web_search` tool call
carrying `{query: "abc"}` and parsed queries in the state, the next step is
indeed search execution, but the executed query set is the parsed one, not
`{"abc"}` — the state queries take precedence inside `WebSearchNode`. -/
theorem c2_counterexample :
    route_to_tool_or_end exC2 = Route.web_search ∧
    (effectiveSearchQueries exC2).map (fun x => x.query) = ["parsed"] ∧
    ("parsed" : String) ≠ "abc" :=
  ⟨rfl, rfl, by decide⟩

/-- C2 (amended): the explicit tool-call request `{query: q}` determines the
executed query set `{q}` only when the state's pending query list is empty;
pending parsed queries take precedence over the tool call. -/
theorem c2_tool_call_query_used_when_no_parsed (s : AgentState) (tc : ToolCall)
    (rest : List ToolCall) (q : String)
    (hq : s.search_queries = [])
    (htc : lastMessageToolCalls s = tc :: rest)
    (harg : tc.args_query = some q) :
    (effectiveSearchQueries s).map (fun x => x.query) = [q] := by
  simp [effectiveSearchQueries, hq, htc, harg]

/-- A state with an explicit tool call and no pending queries. -/
def exC2w : AgentState :=
  { messages :=
      [{ content := "resp"
         tool_calls := [{ name := "web_search", args_query := some "abc" }] }] }

/-- C2 witness: the amended theorem applied at a concrete state. -/
theorem c2_tool_call_query_used_when_no_parsed_witness :
    exC2w.search_queries = [] ∧
    lastMessageToolCalls exC2w =
      [{ name := "web_search", args_query := some "abc" }] ∧
    (effectiveSearchQueries exC2w).map (fun x => x.query) = ["abc"] :=
  ⟨rfl, rfl,
    c2_tool_call_query_used_when_no_parsed exC2w
      { name := "web_search", args_query := some "abc" } [] "abc" rfl rfl rfl⟩

/-! ## Claim C3 -/

/-- A state with one pending query. -/
def exC3 : AgentState :=
  { messages := [{ content := "m", tool_calls := [] }]
    search_queries := [{ query := "q", section_id := some 0 }] }

/-- C3 is refuted as stated: search execution on a state with pending queries
does not clear `search_queries` — the returned state still carries them (they
are only cleared later by the Write stage). -/
theorem c3_counterexample :
    exC3.search_queries ≠ [] ∧
    (webSearchCall (fun _ => []) exC3).search_queries ≠ [] :=
  ⟨by decide, by decide⟩

/-- C3 (amended): search execution on a state with a non-empty pending-query
set increments `search_iterations` by exactly one, and leaves
`search_queries` unchanged (it does not clear them). -/
theorem c3_search_increments_and_keeps_queries (searchFn : String → List RawItem)
    (s : AgentState) (h : s.search_queries ≠ []) :
    (webSearchCall searchFn s).search_iterations = s.search_iterations + 1 ∧
    (webSearchCall searchFn s).search_queries = s.search_queries := by
  have hne : s.search_queries.isEmpty = false := by
    cases hq : s.search_queries with
    | nil => exact absurd hq h
    | cons a l => rfl
  have heff : effectiveSearchQueries s = s.search_queries := by
    simp [effectiveSearchQueries, hne]
  simp [webSearchCall, heff, hne, updateSectionWithResults_eq]

/-- C3 witness: the amended theorem applied at a concrete state. -/
theorem c3_search_increments_and_keeps_queries_witness :
    exC3.search_queries ≠ [] ∧
    (webSearchCall (fun _ => []) exC3).search_iterations =
      exC3.search_iterations + 1 ∧
    (webSearchCall (fun _ => []) exC3).search_queries = exC3.search_queries :=
  ⟨by decide,
    (c3_search_increments_and_keeps_queries (fun _ => []) exC3 (by decide)).1,
    (c3_search_increments_and_keeps_queries (fun _ => []) exC3 (by decide)).2⟩

/-! ## Claim C4 -/

/-- C4: the Write stage on a valid `current_section_index` stores the
generated content in the section at that index with `completed = true`,
appends that section to `completed_sections`, clears `search_queries` and
`search_results`, zeroes `search_iterations`, and sets
`current_section_index` to the first later index whose section is incomplete;
when no such index exists it is `none` and the node chains directly into
final-report compilation (`formatted_report` is set). -/
theorem c4_write_stage (sectionText reportText : String) (s r : AgentState)
    (idx : Nat) (sec : ResearchSection)
    (hidx : s.current_section_index = some idx)
    (hsec : s.sections.get? idx = some sec)
    (hr : r = writeSectionContent sectionText reportText s) :
    r.sections.get? idx = some ⟨sec.title, sec.description, sectionText, true⟩ ∧
    r.completed_sections =
      s.completed_sections ++ [⟨sec.title, sec.description, sectionText, true⟩] ∧
    r.search_queries = [] ∧
    r.search_results = [] ∧
    r.search_iterations = 0 ∧
    (∀ j, r.current_section_index = some j →
        idx < j ∧
        (∃ sec2, r.sections.get? j = some sec2 ∧ sec2.completed = false) ∧
        (∀ k, idx < k → k < j →
          ∀ sec3, r.sections.get? k = some sec3 → sec3.completed = true)) ∧
    (r.current_section_index = none →
        (∀ k, idx < k →
          ∀ sec3, r.sections.get? k = some sec3 → sec3.completed = true) ∧
        r.formatted_report.isSome = true) := by
  subst hr
  obtain ⟨hlt, -⟩ := List.get?_eq_some.mp hsec
  simp only [writeSectionContent, hidx, hsec]
  cases hnext : firstIncompleteFrom
      (s.sections.set idx ⟨sec.title, sec.description, sectionText, true⟩)
      (idx + 1) with
  | none =>
    unfold firstIncompleteFrom at hnext
    have hall := auxFirstIncomplete_none _ _ hnext
    refine ⟨List.get?_set_eq_of_lt _ hlt, rfl, rfl, rfl, rfl, ?_, ?_⟩
    · intro j h
      exact Option.noConfusion h
    · intro _
      refine ⟨?_, rfl⟩
      intro k hk sec3 hget3
      have h1 : ((s.sections.set idx
            ⟨sec.title, sec.description, sectionText, true⟩).drop (idx + 1)).get?
            (k - (idx + 1)) = some sec3 := by
        rw [List.get?_drop]
        have he : idx + 1 + (k - (idx + 1)) = k := by omega
        rw [he]
        exact hget3
      exact hall sec3 (List.get?_mem h1)
  | some j2 =>
    unfold firstIncompleteFrom at hnext
    obtain ⟨k, hk, ⟨sec2, hget2, hc2⟩, hfore⟩ := auxFirstIncomplete_some _ _ _ hnext
    rw [List.get?_drop] at hget2
    refine ⟨List.get?_set_eq_of_lt _ hlt, rfl, rfl, rfl, rfl, ?_, ?_⟩
    · intro j h
      have hj : j2 = j := by
        injection h
      subst hj
      refine ⟨by omega, ⟨sec2, ?_, hc2⟩, ?_⟩
      · have he : idx + 1 + k = j2 := by omega
        rw [he] at hget2
        exact hget2
      · intro k2 hk2a hk2b sec3 hget3
        have h1 : ((s.sections.set idx
              ⟨sec.title, sec.description, sectionText, true⟩).drop (idx + 1)).get?
              (k2 - (idx + 1)) = some sec3 := by
          rw [List.get?_drop]
          have he : idx + 1 + (k2 - (idx + 1)) = k2 := by omega
          rw [he]
          exact hget3
        exact hfore (k2 - (idx + 1)) (by omega) sec3 h1
    · intro h
      exact Option.noConfusion h

/-- A two-section state with the first section current. -/
def exC4 : AgentState :=
  { research_topic := some "T"
    sections :=
      [{ title := "A", description := "da", content := "", completed := false },
       { title := "B", description := "db", content := "", completed := false }]
    current_section_index := some 0 }

/-- C4 witness: the theorem applied at a concrete state. -/
theorem c4_write_stage_witness :
    exC4.current_section_index = some 0 ∧
    exC4.sections.get? 0 =
      some { title := "A", description := "da", content := "", completed := false } ∧
    (writeSectionContent "body" "rep" exC4).sections.get? 0 =
      some { title := "A", description := "da", content := "body", completed := true } ∧
    (writeSectionContent "body" "rep" exC4).search_iterations = 0 :=
  ⟨rfl, rfl,
    (c4_write_stage "body" "rep" exC4 (writeSectionContent "body" "rep" exC4) 0
      { title := "A", description := "da", content := "", completed := false }
      rfl rfl rfl).1,
    (c4_write_stage "body" "rep" exC4 (writeSectionContent "body" "rep" exC4) 0
      { title := "A", description := "da", content := "", completed := false }
      rfl rfl rfl).2.2.2.2.1⟩

/-! ## Claim C5 -/

/-- C5: applying written content replaces exactly the entry at `idx` by a
fresh record carrying the new content and `completed = true`; every other
position (and the length) is unchanged, and the input list itself is of
course untouched (the embedding is a pure function of it). -/
theorem c5_apply_written_content (sections : List ResearchSection) (idx : Nat)
    (content : String) (sec : ResearchSection)
    (h : sections.get? idx = some sec) :
    (applyWrittenContent sections idx content).get? idx =
      some ⟨sec.title, sec.description, content, true⟩ ∧
    (∀ j, j ≠ idx →
      (applyWrittenContent sections idx content).get? j = sections.get? j) ∧
    (applyWrittenContent sections idx content).length = sections.length := by
  obtain ⟨hlt, -⟩ := List.get?_eq_some.mp h
  unfold applyWrittenContent
  rw [h]
  refine ⟨List.get?_set_eq_of_lt _ hlt, ?_, by simp⟩
  intro j hj
  exact List.get?_set_ne _ _ (fun he => hj he.symm)

/-- C5 witness: the theorem applied at a concrete list. -/
theorem c5_apply_written_content_witness :
    ([{ title := "A", description := "da", content := "", completed := false },
      { title := "B", description := "db", content := "", completed := false }] :
        List ResearchSection).get? 0 =
      some { title := "A", description := "da", content := "", completed := false } ∧
    (applyWrittenContent
      [{ title := "A", description := "da", content := "", completed := false },
       { title := "B", description := "db", content := "", completed := false }]
      0 "body").get? 0 =
      some { title := "A", description := "da", content := "body", completed := true } ∧
    (applyWrittenContent
      [{ title := "A", description := "da", content := "", completed := false },
       { title := "B", description := "db", content := "", completed := false }]
      0 "body").get? 1 =
      some { title := "B", description := "db", content := "", completed := false } :=
  ⟨rfl,
    (c5_apply_written_content
      [{ title := "A", description := "da", content := "", completed := false },
       { title := "B", description := "db", content := "", completed := false }]
      0 "body"
      { title := "A", description := "da", content := "", completed := false } rfl).1,
    by
      rw [(c5_apply_written_content
        [{ title := "A", description := "da", content := "", completed := false },
         { title := "B", description := "db", content := "", completed := false }]
        0 "body"
        { title := "A", description := "da", content := "", completed := false }
        rfl).2.1 1 (by decide)]
      rfl⟩

/-! ## Claim C6 -/

/-- C6: in section-block parsing, the presence of a "no research" marker line
after the title makes the parsed section `completed = true` from creation
(its `requires_research` flag is false), and the description is assembled
from exactly the non-marker lines — every marker line is excluded. -/
theorem c6_no_research_marker_line (lines : List String) (l : String)
    (hmem : l ∈ lines.tail) (hmark : noResearchMarker l = true) :
    (parseSectionBlock lines).completed = true ∧
    (parseSectionBlock lines).description =
      pyStrip (concatAll ((lines.tail.filter
        (fun x => !noResearchMarker x)).map (fun x => x ++ " "))) := by
  have hall : lines.tail.all (fun x => !noResearchMarker x) = false := by
    cases h2 : lines.tail.all (fun x => !noResearchMarker x) with
    | false => rfl
    | true =>
      have h3 := List.all_eq_true.mp h2 l hmem
      rw [hmark] at h3
      simp at h3
  simp only [parseSectionBlock, sectionDescFold]
  constructor
  · simp [hall]
  · rfl

/-- C6 witness: the theorem applied at a concrete block. -/
theorem c6_no_research_marker_line_witness :
    ("Research required: no" ∈ (["Title", "alpha", "Research required: no"]).tail) ∧
    noResearchMarker "Research required: no" = true ∧
    (parseSectionBlock ["Title", "alpha", "Research required: no"]).completed = true ∧
    (parseSectionBlock ["Title", "alpha", "Research required: no"]).description = "alpha" := by
  refine ⟨by decide, by decide, ?_, ?_⟩
  · exact (c6_no_research_marker_line ["Title", "alpha", "Research required: no"]
      "Research required: no" (by decide) (by decide)).1
  · rw [(c6_no_research_marker_line ["Title", "alpha", "Research required: no"]
      "Research required: no" (by decide) (by decide)).2]
    decide

/-! ## Claim C7 -/

/-- C7 is refuted as stated: the line `"hello` (stripped form of the input)
is non-empty, is no heading, matches no list pattern and is *not wrapped* in
quotation marks (it only starts with one), yet `_parse_queries` rejects it —
the code skips any line that starts *or* ends with a quote, not only wrapped
ones. -/
theorem c7_counterexample :
    pyStrip "\"hello" ≠ "" ∧
    pyStartsWith (pyStrip "\"hello") "#" = false ∧
    pyStartsWith (pyStrip "\"hello") "<" = false ∧
    matchListItem (pyStrip "\"hello").data = none ∧
    (pyStartsWith (pyStrip "\"hello") "\"" && pyEndsWith (pyStrip "\"hello") "\"")
      = false ∧
    parseQueries "\"hello" 0 = [] :=
  ⟨by decide, by decide, by decide, by decide, by decide, by decide⟩

/-- C7 (amended): a non-empty line that is not skipped as a heading and
matches the list pattern contributes a query from the captured remainder;
a non-empty non-heading line that does not match the list pattern is accepted
verbatim provided it neither starts nor ends with a quotation mark (a
condition strictly stronger than "not wrapped in quotation marks"). -/
theorem c7_query_line_acceptance (content : String) (sectionId : Nat) (l : String)
    (hmem : l ∈ pyLines (pyStrip content))
    (hne : pyStrip l ≠ "")
    (hh1 : pyStartsWith (pyStrip l) "#" = false)
    (hh2 : pyStartsWith (pyStrip l) "<" = false) :
    (∀ r, matchListItem (pyStrip l).data = some r →
        SearchQuery.mk (pyStrip (String.mk r)) (some sectionId) ∈
          parseQueries content sectionId) ∧
    (matchListItem (pyStrip l).data = none →
      pyStartsWith (pyStrip l) "\"" = false →
      pyEndsWith (pyStrip l) "\"" = false →
      SearchQuery.mk (pyStrip l) (some sectionId) ∈
        parseQueries content sectionId) := by
  have hskip : ((pyStrip l == "") || pyStartsWith (pyStrip l) "#"
      || pyStartsWith (pyStrip l) "<") = false := by
    simp only [hh1, hh2, Bool.or_false]
    simp [hne]
  constructor
  · intro r hr
    refine List.mem_filterMap.mpr ⟨l, hmem, ?_⟩
    simp [lineQueryOf, hskip, hr]
  · intro hr hq1 hq2
    refine List.mem_filterMap.mpr ⟨l, hmem, ?_⟩
    simp [lineQueryOf, hskip, hr, hq1, hq2, hne]

/-- C7 witness: the amended theorem applied at a concrete input. -/
theorem c7_query_line_acceptance_witness :
    ("1. alpha" ∈ pyLines (pyStrip "1. alpha\nbeta")) ∧
    matchListItem (pyStrip "1. alpha").data = some ("alpha".data) ∧
    SearchQuery.mk "alpha" (some 4) ∈ parseQueries "1. alpha\nbeta" 4 := by
  refine ⟨by decide, by decide, ?_⟩
  have h := (c7_query_line_acceptance "1. alpha\nbeta" 4 "1. alpha"
    (by decide) (by decide) (by decide) (by decide)).1 ("alpha".data) (by decide)
  have he : pyStrip (String.mk ("alpha".data)) = "alpha" := by decide
  rw [he] at h
  exact h

/-! ## Claim C8 -/

/-- A state whose section index points past the end of `sections`. -/
def exC8 : AgentState :=
  { sections := [{ title := "A", description := "d" }]
    current_section_index := some 5 }

/-- C8 is refuted as stated: with `current_section_index` past the end of
`sections`, the section-writing node does not return the state unchanged —
it proceeds to final-report generation and sets `formatted_report`. -/
theorem c8_counterexample :
    exC8.current_section_index = some 5 ∧
    exC8.sections.length ≤ 5 ∧
    exC8.formatted_report = none ∧
    (finalAnswerCall "c" "r" exC8).formatted_report.isSome = true :=
  ⟨rfl, by decide, rfl, rfl⟩

/-- C8 (amended): on an out-of-bounds `current_section_index`, query
generation and the search-result merge short-circuit and return the state
unchanged (with a warning); the section-writing node, however, does not
short-circuit — it falls through to final-report generation. -/
theorem c8_index_guard (response : Message)
    (results : List (String × List SearchResultItem))
    (sectionText reportText : String) (s : AgentState) (idx : Nat)
    (hidx : s.current_section_index = some idx)
    (hoob : s.sections.length ≤ idx) :
    generateQueries response s = s ∧
    updateSectionWithResults s results = s ∧
    finalAnswerCall sectionText reportText s = generateFinalReport reportText s := by
  refine ⟨?_, updateSectionWithResults_eq s results, ?_⟩
  · simp [generateQueries, hidx, hoob]
  · simp [finalAnswerCall, hidx, show ¬(idx < s.sections.length) by omega]

/-- C8 witness: the amended theorem applied at a concrete state. -/
theorem c8_index_guard_witness :
    exC8.current_section_index = some 5 ∧
    exC8.sections.length ≤ 5 ∧
    generateQueries { content := "resp" } exC8 = exC8 ∧
    updateSectionWithResults exC8 [] = exC8 ∧
    finalAnswerCall "c" "r" exC8 = generateFinalReport "r" exC8 :=
  ⟨rfl, by decide,
    (c8_index_guard { content := "resp" } [] "c" "r" exC8 5 rfl (by decide)).1,
    (c8_index_guard { content := "resp" } [] "c" "r" exC8 5 rfl (by decide)).2.1,
    (c8_index_guard { content := "resp" } [] "c" "r" exC8 5 rfl (by decide)).2.2⟩

/-! ## Claim C9 -/

/-- C9: when `completed_sections` is empty and `sections` is not, the final
compilation renders its per-section content blocks from the raw `sections`
list. -/
theorem c9_compile_fallback (s : AgentState)
    (hempty : s.completed_sections = [])
    (hne : s.sections ≠ []) :
    reportSectionList s = s.sections ∧
    finalReportSectionsContent s = sectionsContentOf s.sections := by
  have h1 : reportSectionList s = s.sections := by
    simp [reportSectionList, hempty]
  exact ⟨h1, by simp [finalReportSectionsContent, h1]⟩

/-- A state with one raw section and no completed sections. -/
def exC9 : AgentState :=
  { sections := [{ title := "A", description := "da", content := "ca", completed := false }]
    completed_sections := [] }

/-- C9 witness: the theorem applied at a concrete state. -/
theorem c9_compile_fallback_witness :
    exC9.completed_sections = [] ∧
    exC9.sections ≠ [] ∧
    finalReportSectionsContent exC9 = sectionsContentOf exC9.sections :=
  ⟨rfl, by decide, (c9_compile_fallback exC9 rfl (by decide)).2⟩

/-! ## Claim C10 -/

/-- C10: with no pending queries and no tool call on the last message, the
web-search node returns its input state unchanged — no message appended, no
trace or source entries, `search_results` untouched, `search_iterations` not
incremented. -/
theorem c10_no_query_no_toolcall_is_noop (searchFn : String → List RawItem)
    (s : AgentState)
    (hmsg : s.messages ≠ [])
    (hq : s.search_queries = [])
    (htc : lastMessageToolCalls s = []) :
    webSearchCall searchFn s = s := by
  have heff : effectiveSearchQueries s = [] := by
    simp [effectiveSearchQueries, hq, htc]
  simp [webSearchCall, heff]

/-- A state with one message carrying no tool calls and no pending queries. -/
def exC10 : AgentState :=
  { messages := [{ content := "m", tool_calls := [] }]
    search_queries := [] }

/-- C10 witness: the theorem applied at a concrete state. -/
theorem c10_no_query_no_toolcall_is_noop_witness :
    exC10.messages ≠ [] ∧
    exC10.search_queries = [] ∧
    lastMessageToolCalls exC10 = [] ∧
    webSearchCall (fun _ => []) exC10 = exC10 :=
  ⟨by decide, rfl, rfl,
    c10_no_query_no_toolcall_is_noop (fun _ => []) exC10 (by decide) rfl rfl⟩

end ResearchAgent
